import Mathlib

/-!
Shallow embedding of the swh dataset-writer crate (src/lib.rs, src/parquet.rs,
src/partitioned.rs, src/ipc.rs) and proofs about its flush, rollover,
partitioning and lifecycle logic.

Paths are modelled as an absoluteness flag plus a list of normal components
(the writers are driven with plain component paths: a dataset directory joined
with a decimal sequence number). Rust's `Path::pop` returns false exactly when
the path has no parent, `Path::file_name` is the last component, and
`Path::set_extension` rewrites the extension of the last component.
-/

namespace DatasetWriter

/-- Model of Rust PathBuf restricted to paths made of normal components. -/
structure RPath where
  absolute : Bool
  comps : List String
deriving DecidableEq, Repr

/-- Model of PathBuf::join with a single normal component. -/
def RPath.join (p : RPath) (c : String) : RPath :=
  ⟨p.absolute, p.comps ++ [c]⟩

/-- Model of Path::file_name: the final component, if any. -/
def RPath.fileName (p : RPath) : Option String :=
  p.comps.getLast?

/-- Model of PathBuf::pop: drops the last component and reports whether the
path had a parent (false exactly for the empty or root path). -/
def RPath.pop (p : RPath) : Bool × RPath :=
  match p.comps with
  | [] => (false, p)
  | _ :: _ => (true, ⟨p.absolute, p.comps.dropLast⟩)

/-- Model of PathBuf::with_file_name: replaces the final component. -/
def RPath.withFileName (p : RPath) (s : String) : RPath :=
  ⟨p.absolute, p.comps.dropLast ++ [s]⟩

/-- Scans the reversed characters of a file name for its extension: returns
the reversed extension together with the remaining reversed stem, or none if
no dot occurs. -/
def revSplitDot : List Char → Option (List Char × List Char)
  | [] => none
  | c :: cs =>
    if c = '.' then some ([], cs)
    else
      match revSplitDot cs with
      | none => none
      | some (e, s) => some (c :: e, s)

/-- Rust Path::file_stem on a file name: the part before the final dot,
except that a name whose only dot is its first character is all stem. -/
def stemChars (cs : List Char) : List Char :=
  match revSplitDot cs.reverse with
  | none => cs
  | some (_, sRev) => if sRev = [] then cs else sRev.reverse

/-- Rust PathBuf::set_extension at the level of one file name: the stem
followed by a dot and the new extension. -/
def setExtChars (cs ext : List Char) : List Char :=
  stemChars cs ++ '.' :: ext

/-- Model of PathBuf::set_extension (no-op on a path with no file name,
matching Rust returning false and leaving the path unchanged). -/
def RPath.setExtension (p : RPath) (ext : String) : RPath :=
  match p.comps.getLast? with
  | none => p
  | some name => p.withFileName ⟨setExtChars name.data ext.data⟩

/-- Little-endian decimal digits of a number, with explicit fuel; mirrors the
structure of the decimal rendering used by Rust u64::to_string. -/
def decDigitsCore : Nat → Nat → List Nat
  | 0, _ => []
  | fuel + 1, n => if n < 10 then [n] else n % 10 :: decDigitsCore fuel (n / 10)

/-- Character of one decimal digit. -/
def digitCh : Nat → Char
  | 0 => '0'
  | 1 => '1'
  | 2 => '2'
  | 3 => '3'
  | 4 => '4'
  | 5 => '5'
  | 6 => '6'
  | 7 => '7'
  | 8 => '8'
  | 9 => '9'
  | _ => '*'

/-- Model of Rust u64::to_string: decimal digits, most significant first. -/
def natToString (n : Nat) : String :=
  ⟨((decDigitsCore (n + 1) n).reverse).map digitCh⟩

/-- Decodes a little-endian decimal digit list. -/
def undecDigits (l : List Nat) : Nat :=
  l.foldr (fun d acc => d + 10 * acc) 0

theorem undec_decDigitsCore : ∀ fuel n, n < fuel →
    undecDigits (decDigitsCore fuel n) = n := by
  intro fuel
  induction fuel with
  | zero => intro n hn; omega
  | succ fuel ih =>
    intro n hn
    by_cases h10 : n < 10
    · simp [decDigitsCore, h10, undecDigits]
    · have hdiv : n / 10 < n := Nat.div_lt_self (by omega) (by omega)
      have hfuel : n / 10 < fuel := by omega
      simp only [decDigitsCore, if_neg h10]
      simp only [undecDigits, List.foldr] at *
      rw [ih (n / 10) hfuel]
      omega

theorem decDigitsCore_lt_ten : ∀ fuel n d, d ∈ decDigitsCore fuel n → d < 10 := by
  intro fuel
  induction fuel with
  | zero => intro n d hd; simp [decDigitsCore] at hd
  | succ fuel ih =>
    intro n d hd
    by_cases h10 : n < 10
    · simp [decDigitsCore, h10] at hd; omega
    · simp only [decDigitsCore, if_neg h10, List.mem_cons] at hd
      rcases hd with h | h
      · omega
      · exact ih _ _ h

theorem digitCh_inj : ∀ d1, d1 < 10 → ∀ d2, d2 < 10 →
    digitCh d1 = digitCh d2 → d1 = d2 := by decide

theorem map_digitCh_inj : ∀ l1 l2 : List Nat, (∀ d ∈ l1, d < 10) → (∀ d ∈ l2, d < 10) →
    l1.map digitCh = l2.map digitCh → l1 = l2 := by
  intro l1
  induction l1 with
  | nil => intro l2 _ _ h; cases l2 <;> simp_all
  | cons a l1 ih =>
    intro l2 h1 h2 h
    cases l2 with
    | nil => simp at h
    | cons b l2 =>
      simp only [List.map_cons, List.cons.injEq] at h
      have hab : a = b :=
        digitCh_inj a (h1 a (by simp)) b (h2 b (by simp)) h.1
      have : l1 = l2 :=
        ih l2 (fun d hd => h1 d (by simp [hd])) (fun d hd => h2 d (by simp [hd])) h.2
      simp [hab, this]

theorem natToString_inj : Function.Injective natToString := by
  intro m n h
  have hdata : ((decDigitsCore (m + 1) m).reverse).map digitCh
      = ((decDigitsCore (n + 1) n).reverse).map digitCh := by
    have := congrArg String.data h
    simpa [natToString] using this
  have hrev : (decDigitsCore (m + 1) m).reverse = (decDigitsCore (n + 1) n).reverse := by
    apply map_digitCh_inj _ _ _ _ hdata
    · intro d hd
      exact decDigitsCore_lt_ten _ _ _ (List.mem_reverse.mp hd)
    · intro d hd
      exact decDigitsCore_lt_ten _ _ _ (List.mem_reverse.mp hd)
  have hdig : decDigitsCore (m + 1) m = decDigitsCore (n + 1) n :=
    List.reverse_injective hrev
  have hm := undec_decDigitsCore (m + 1) m (by omega)
  have hn := undec_decDigitsCore (n + 1) n (by omega)
  rw [← hm, ← hn, hdig]

/-!
Model of src/parquet.rs.

The builder (the StructArrayBuilder capability of src/lib.rs) is a list of
row byte-sizes: len() is the list length, buffer_size() the sum, and finish()
hands over all buffered rows and resets the builder to empty.

The parquet ArrowWriter sink is opaque (spec section 1); it is modelled by the
counters the source reads: write() buffers the rows of the batch, the sink
flush() turns the buffered rows into row groups (one group per chunk of at
most max_row_group_size rows), and flushed_row_groups().len() is the running
row-group count of the current physical file.
-/

/-- Builder state: the byte sizes of the buffered rows. -/
abbrev Builder := List Nat

/-- State of one open parquet physical file: its path, rows buffered in the
sink but not yet in a row group, the row groups flushed so far, and the total
rows accepted by write(). -/
structure FileWriterState where
  path : RPath
  pending : Nat
  rowGroups : Nat
  written : Nat
deriving DecidableEq, Repr

/-- Row groups created when the sink flushes p buffered rows with target row
group size M: none for an empty buffer, otherwise one per chunk of M rows. -/
def groupsOf (p M : Nat) : Nat :=
  if p = 0 then 0 else (p - 1) / M + 1

/-- Rollover threshold of ParquetTableWriter::flush: the source compares
flushed_row_groups().len() against i16::MAX - 2 = 32765. -/
def rolloverThreshold : Nat := 32765

/-- Model of ParquetTableWriterConfig. -/
structure ParquetTableWriterConfig where
  autoflushRowGroupLen : Option Nat
  autoflushBufferSize : Option Nat
deriving DecidableEq, Repr

/-- Model of ParquetTableWriter. maxRowGroupSize stands for the
WriterProperties field the source reads; closedFiles and createdFiles log the
physical files finalized and opened so far. -/
structure ParquetTableWriter where
  basePath : RPath
  autoflushRowGroupLen : Nat
  autoflushBufferSize : Option Nat
  maxRowGroupSize : Nat
  fileWriter : Option FileWriterState
  numWrittenFiles : Nat
  builder : Builder
  closedFiles : List RPath
  createdFiles : List RPath
deriving DecidableEq, Repr

/-- Outcome of a fallible writer operation; panicked models the expect and
unwrap calls of the source. -/
inductive FlushOutcome where
  | ok
  | writeErr
  | sinkFlushErr
  | panicked
deriving DecidableEq, Repr

/-- Behaviour of the I/O sink during one flush, used to model write or flush
failures of the underlying file. -/
inductive SinkBehavior where
  | sinkOk
  | writeFails
  | flushFails
deriving DecidableEq, Repr

/-- Naming step of ParquetTableWriter::new_file_writer: the first physical
file is the base path itself, every later one has the file name of the base
path with a suffix of an underscore and the file count; then the extension is
set to parquet. Returns none where the source panics (base path with no file
name, only reachable for the second and later files). -/
def newFilePathQ (basePath : RPath) (numWrittenFiles : Nat) : Option RPath :=
  if numWrittenFiles = 0 then
    some (basePath.setExtension "parquet")
  else
    match basePath.fileName with
    | none => none
    | some name =>
      some ((basePath.withFileName (name ++ "_" ++ natToString numWrittenFiles)).setExtension
        "parquet")

/-- Model of ParquetTableWriter::new_file_writer: closes the previous file
writer if any (counting it in num_written_files), then opens the next
physical file under the rollover name. -/
def ParquetTableWriter.newFileWriter (w : ParquetTableWriter) :
    FlushOutcome × ParquetTableWriter :=
  let w1 :=
    match w.fileWriter with
    | some fw =>
      { w with
        fileWriter := none
        closedFiles := w.closedFiles ++ [fw.path]
        numWrittenFiles := w.numWrittenFiles + 1 }
    | none => w
  match newFilePathQ w1.basePath w1.numWrittenFiles with
  | none => (.panicked, w1)
  | some p =>
    (.ok,
      { w1 with
        fileWriter := some { path := p, pending := 0, rowGroups := 0, written := 0 }
        createdFiles := w1.createdFiles ++ [p] })

/-- Model of ParquetTableWriter::flush under a given sink behaviour: the
builder is drained first, the batch is written, the sink is flushed, and the
writer rolls over to a new physical file exactly when the row-group count of
the current file has reached the threshold. -/
def ParquetTableWriter.flushB (w : ParquetTableWriter) (b : SinkBehavior) :
    FlushOutcome × ParquetTableWriter :=
  let rows := w.builder.length
  let w1 := { w with builder := [] }
  match w1.fileWriter with
  | none => (.panicked, w1)
  | some fw =>
    match b with
    | .writeFails => (.writeErr, w1)
    | .flushFails =>
      (.sinkFlushErr,
        { w1 with
          fileWriter := some { fw with pending := fw.pending + rows, written := fw.written + rows } })
    | .sinkOk =>
      let fw2 : FileWriterState :=
        { fw with
          pending := 0
          written := fw.written + rows
          rowGroups := fw.rowGroups + groupsOf (fw.pending + rows) w.maxRowGroupSize }
      let w2 := { w1 with fileWriter := some fw2 }
      if rolloverThreshold ≤ fw2.rowGroups then
        w2.newFileWriter
      else
        (.ok, w2)

/-- Model of the TableWriter::new implementation for ParquetTableWriter: the
effective auto-flush row count defaults to nine tenths of the properties'
max_row_group_size, and the first physical file is opened at once. -/
def ParquetTableWriter.new (path : RPath) (maxRowGroupSize : Nat)
    (cfg : ParquetTableWriterConfig) : ParquetTableWriter :=
  let w0 : ParquetTableWriter :=
    { basePath := path
      autoflushRowGroupLen := cfg.autoflushRowGroupLen.getD (maxRowGroupSize * 9 / 10)
      autoflushBufferSize := cfg.autoflushBufferSize
      maxRowGroupSize := maxRowGroupSize
      fileWriter := none
      numWrittenFiles := 0
      builder := []
      closedFiles := []
      createdFiles := [] }
  w0.newFileWriter.2

/-- Model of ParquetTableWriter::close: one final flush, then the file writer
is taken out of the writer (leaving none behind) and finalized. On a flush
error the source returns early, leaving the file writer in place. -/
def ParquetTableWriter.close (w : ParquetTableWriter) :
    FlushOutcome × ParquetTableWriter :=
  match w.flushB .sinkOk with
  | (.ok, w1) =>
    match w1.fileWriter with
    | none => (.panicked, w1)
    | some fw =>
      (.ok, { w1 with fileWriter := none, closedFiles := w1.closedFiles ++ [fw.path] })
  | (e, w1) => (e, w1)

/-- Model of the Drop impl for ParquetTableWriter: the number of finalization
attempts it performs, one when the file writer is still present (flush plus
close of the file), zero otherwise. -/
def ParquetTableWriter.dropFinalizeAttempts (w : ParquetTableWriter) : Nat :=
  if w.fileWriter.isSome then 1 else 0

/-- Model of ParquetTableWriter::builder: flushes when the buffered row count
has reached the configured length, then again when the buffered byte size has
reached the configured ceiling, and hands the builder back. Returns the
outcome, the post state, and the number of flushes performed. -/
def ParquetTableWriter.builderCall (w : ParquetTableWriter) :
    FlushOutcome × ParquetTableWriter × Nat :=
  let step1 : FlushOutcome × ParquetTableWriter × Nat :=
    if w.autoflushRowGroupLen ≤ w.builder.length then
      let r := w.flushB .sinkOk
      (r.1, r.2, 1)
    else
      (.ok, w, 0)
  match step1 with
  | (.ok, w1, n1) =>
    match w1.autoflushBufferSize with
    | some sz =>
      if sz ≤ w1.builder.sum then
        let r := w1.flushB .sinkOk
        (r.1, r.2, n1 + 1)
      else
        (.ok, w1, n1)
    | none => (.ok, w1, n1)
  | (e, w1, n1) => (e, w1, n1)

/-!
Model of src/ipc.rs (ArrowTableWriter). The arrow IPC FileWriter errors on
write and on finish once it has been finished, which the model tracks with a
finished flag and a count of finish attempts.
-/

/-- Model of ArrowTableWriter: the IPC file writer is reduced to its finished
flag plus a count of the finish (footer write) attempts made on it. -/
structure ArrowTableWriter where
  path : RPath
  finished : Bool
  builder : Builder
  finishAttempts : Nat
deriving DecidableEq, Repr

/-- Model of ArrowTableWriter::flush: the builder is swapped out and finished,
then the batch is written; the IPC writer rejects a write once finished. -/
def ArrowTableWriter.flushA (w : ArrowTableWriter) : FlushOutcome × ArrowTableWriter :=
  let w1 := { w with builder := [] }
  if w.finished then (.writeErr, w1) else (.ok, w1)

/-- Model of the arrow IPC FileWriter::finish call: always an attempt; it
errors when the writer was already finished. -/
def ArrowTableWriter.finishA (w : ArrowTableWriter) : FlushOutcome × ArrowTableWriter :=
  if w.finished then
    (.writeErr, { w with finishAttempts := w.finishAttempts + 1 })
  else
    (.ok, { w with finished := true, finishAttempts := w.finishAttempts + 1 })

/-- Model of the Drop impl for ArrowTableWriter: it unconditionally flushes
(unwrap) and finishes (expect); a write or finish error panics. -/
def ArrowTableWriter.dropA (w : ArrowTableWriter) : FlushOutcome × ArrowTableWriter :=
  match w.flushA with
  | (.ok, w1) => w1.finishA
  | (_, w1) => (.panicked, w1)

/-- Model of ArrowTableWriter::close followed by the drop of the consumed
writer (Rust drops self when close returns, and the Drop impl runs then):
returns the close body outcome, the drop outcome, and the final state. -/
def ArrowTableWriter.closeThenDrop (w : ArrowTableWriter) :
    FlushOutcome × FlushOutcome × ArrowTableWriter :=
  let body : FlushOutcome × ArrowTableWriter :=
    match w.flushA with
    | (.ok, w1) => w1.finishA
    | (e, w1) => (e, w1)
  match body.2.dropA with
  | (.ok, w2) => (body.1, .ok, w2)
  | (d, w2) => (body.1, d, w2)

/-!
Model of src/partitioned.rs. A sub-writer is identified by the path it is
created at; directory and file creations are logged as events.
-/

/-- Filesystem side effects of the partitioned writers. -/
inductive FsEvent where
  | mkdirAll (p : RPath)
  | createFile (p : RPath)
deriving DecidableEq, Repr

/-- Construction error of the partitioned writers: the ensure that fails when
the supplied path has no parent to pop. -/
inductive CreateErr where
  | noParent
deriving DecidableEq, Repr

/-- Model of U16PartitionedTableWriter: its eagerly created sub-writers,
identified by their paths. -/
structure U16PartitionedTableWriter where
  subWriters : List RPath
deriving DecidableEq, Repr

/-- Model of U16PartitionedTableWriter::new: takes the file name off the path
as the thread id (failing when the path has no parent to pop), then eagerly
creates one bucket directory and sub-writer per partition, or a single
sub-writer in the parent directory when partitioning is disabled. -/
def u16New (path : RPath) (partitionColumn : String) (numPartitions : Option Nat) :
    Except CreateErr (U16PartitionedTableWriter × List FsEvent) :=
  match path.comps.getLast? with
  | none => .error .noParent
  | some threadId =>
    let parent : RPath := ⟨path.absolute, path.comps.dropLast⟩
    let buckets := (List.range (numPartitions.getD 1)).map fun partitionId =>
      let partitionPath :=
        match numPartitions with
        | some _ => parent.join (partitionColumn ++ "=" ++ natToString partitionId)
        | none => parent
      (partitionPath, partitionPath.join threadId)
    .ok (⟨buckets.map Prod.snd⟩,
      buckets.flatMap fun pr => [.mkdirAll pr.1, .createFile pr.2])

/-- Model of Utf8PartitionedTableWriter: parent path, partition column name,
thread id segment, and the lazily grown key-to-sub-writer registry (an
association list looked up by exact string equality). -/
structure Utf8PartitionedTableWriter where
  path : RPath
  partitionColumn : String
  threadId : String
  partitionWriters : List (String × RPath)
deriving DecidableEq, Repr

/-- Model of Utf8PartitionedTableWriter::new: splits the path into parent and
thread id (failing when there is no parent to pop) and starts with an empty
registry. -/
def utf8New (path : RPath) (partitionColumn : String) :
    Except CreateErr Utf8PartitionedTableWriter :=
  match path.comps.getLast? with
  | none => .error .noParent
  | some threadId =>
    .ok
      { path := ⟨path.absolute, path.comps.dropLast⟩
        partitionColumn := partitionColumn
        threadId := threadId
        partitionWriters := [] }

/-- Model of Utf8PartitionedTableWriter::partition: an occupied registry entry
is handed back untouched; a vacant one creates the partition directory and a
sub-writer inside it, and registers it under the key. Returns the sub-writer,
the post state and the filesystem events. -/
def Utf8PartitionedTableWriter.partition (w : Utf8PartitionedTableWriter)
    (partitionKey : String) : RPath × Utf8PartitionedTableWriter × List FsEvent :=
  match List.lookup partitionKey w.partitionWriters with
  | some sub => (sub, w, [])
  | none =>
    let partitionPath := w.path.join (w.partitionColumn ++ "=" ++ partitionKey)
    let sub := partitionPath.join w.threadId
    (sub,
      { w with partitionWriters := w.partitionWriters ++ [(partitionKey, sub)] },
      [.mkdirAll partitionPath, .createFile sub])

/-!
Model of src/lib.rs (ParallelDatasetWriter). The atomic num_files counter
serializes its fetch_add calls, so any schedule of k lazy writer creations is
some serial trace of k increments; the trace of allocated sequence numbers is
modelled starting from a counter value.
-/

/-- Sequence numbers handed out by k successive fetch_add(1) calls on the
num_files counter starting at c. -/
def seqAlloc (c : Nat) : Nat → List Nat
  | 0 => []
  | k + 1 => c :: seqAlloc (c + 1) k

/-- Path of the writer created for sequence number n by
ParallelDatasetWriter::get_new_seq_writer: the dataset directory joined with
the decimal rendering of n. -/
def seqWriterPath (dir : RPath) (n : Nat) : RPath :=
  dir.join (natToString n)

/-- Result of ParallelDatasetWriter::get_thread_writer for one thread: either
a writer reference or a panic (RefCell::borrow_mut on an outstanding
borrow). -/
inductive BorrowResult (W : Type) where
  | acquired (w : W)
  | panicked
deriving DecidableEq, Repr

/-- Per-thread slot of the ThreadLocal registry: the lazily created writer in
its RefCell together with whether a mutable borrow of it is outstanding. -/
structure ThreadSlot (W : Type) where
  writer : Option W
  borrowed : Bool
deriving DecidableEq, Repr

/-- Model of ParallelDatasetWriter::get_thread_writer for one thread: creates
the writer on first access, and otherwise borrows the existing one; a borrow
while the previous reference is still live panics. -/
def getThreadWriter {W : Type} (mk : Unit → W) (s : ThreadSlot W) :
    BorrowResult W × ThreadSlot W :=
  match s.writer with
  | none => (.acquired (mk ()), ⟨some (mk ()), true⟩)
  | some w =>
    if s.borrowed then (.panicked, s)
    else (.acquired w, ⟨some w, true⟩)

/-!
Helper lemmas.
-/

theorem revSplitDot_eq_none : ∀ l : List Char, '.' ∉ l → revSplitDot l = none := by
  intro l
  induction l with
  | nil => intro _; rfl
  | cons c cs ih =>
    intro h
    have hc : ¬ (c = '.') := by
      intro hcc
      exact h (by simp [hcc])
    have hcs : '.' ∉ cs := fun hm => h (List.mem_cons_of_mem _ hm)
    simp [revSplitDot, hc, ih hcs]

theorem stemChars_noDot (l : List Char) (h : '.' ∉ l) : stemChars l = l := by
  have : '.' ∉ l.reverse := by simpa using h
  simp [stemChars, revSplitDot_eq_none l.reverse this]

theorem setExtension_concat_noDot (abs : Bool) (cs : List String) (x : String)
    (hx : '.' ∉ x.data) :
    RPath.setExtension ⟨abs, cs ++ [x]⟩ "parquet" = ⟨abs, cs ++ [x ++ ".parquet"]⟩ := by
  have hx2 : (⟨setExtChars x.data "parquet".data⟩ : String) = x ++ ".parquet" := by
    apply String.ext
    simp [setExtChars, stemChars_noDot x.data hx, String.data_append]
  simp [RPath.setExtension, RPath.fileName, RPath.withFileName, List.getLast?_concat,
    List.dropLast_concat, hx2]

theorem digitCh_ne_dot : ∀ d, d < 10 → digitCh d ≠ '.' := by decide

theorem natToString_noDot (n : Nat) : '.' ∉ (natToString n).data := by
  simp only [natToString, List.mem_map, List.mem_reverse]
  rintro ⟨d, hd, hdot⟩
  exact digitCh_ne_dot d (decDigitsCore_lt_ten _ _ _ hd) hdot

theorem seqAlloc_eq_range' : ∀ (k c : Nat), seqAlloc c k = List.range' c k := by
  intro k
  induction k with
  | zero => intro c; rfl
  | succ k ih => intro c; simp [seqAlloc, List.range', ih]

theorem seqWriterPath_injective (dir : RPath) : Function.Injective (seqWriterPath dir) := by
  intro m n h
  simp only [seqWriterPath, RPath.join, RPath.mk.injEq] at h
  have := List.append_cancel_left h.2
  simp only [List.cons.injEq] at this
  exact natToString_inj this.1

/-!
Claim theorems.
-/

/-- Claim C7: when ParquetTableWriter is constructed with
autoflush_row_group_len set to None, the effective auto-flush row-count
threshold equals ninety percent of the writer properties' max_row_group_size
(floor of max_row_group_size * 9 / 10); a supplied value is used unchanged. -/
theorem parquet_autoflush_default_ninety_percent (path : RPath) (maxRowGroupSize v : Nat)
    (bufSz : Option Nat) :
    (ParquetTableWriter.new path maxRowGroupSize ⟨none, bufSz⟩).autoflushRowGroupLen
        = maxRowGroupSize * 9 / 10
    ∧ (ParquetTableWriter.new path maxRowGroupSize ⟨some v, bufSz⟩).autoflushRowGroupLen = v := by
  constructor <;>
    simp [ParquetTableWriter.new, ParquetTableWriter.newFileWriter, newFilePathQ]

/-- Claim C4: the file-sequence numbers allocated by one
ParallelDatasetWriter to its lazily created per-thread writers are dense (the
trace of k atomic fetch_add calls yields 0, 1, ..., k-1 in allocation order),
pairwise distinct, and the derived per-thread output file paths are pairwise
distinct as well; the atomic counter serializes concurrent calls, so this
holds regardless of thread scheduling order. -/
theorem parallel_seq_numbers_dense_distinct (dir : RPath) (k : Nat) :
    seqAlloc 0 k = List.range k
    ∧ (seqAlloc 0 k).Nodup
    ∧ ((seqAlloc 0 k).map (seqWriterPath dir)).Nodup := by
  have hr : seqAlloc 0 k = List.range k := by
    rw [seqAlloc_eq_range', List.range_eq_range']
  refine ⟨hr, ?_, ?_⟩
  · rw [hr]; exact List.nodup_range k
  · rw [hr]; exact (List.nodup_range k).map (seqWriterPath_injective dir)

/-- Claim C9: a call to get_thread_writer by a thread whose slot already holds
a writer with a live outstanding reference panics (RefCell::borrow_mut) rather
than returning a second aliasing reference; in particular a second call right
after any call panics, since every call leaves the borrow outstanding. -/
theorem thread_writer_reborrow_panics (W : Type) (mk : Unit → W) (s : ThreadSlot W)
    (w : W) :
    (getThreadWriter mk ⟨some w, true⟩).1 = .panicked
    ∧ (getThreadWriter mk (getThreadWriter mk s).2).1 = .panicked := by
  constructor
  · rfl
  · rcases s with ⟨ow, b⟩
    cases ow with
    | none => rfl
    | some w0 => cases b <;> rfl

/-- Claim C6: under one logical parquet writer identity with a dot-free base
file name, the first physical file is the base name with the parquet
extension, and the n-th physical file for n at least 1 carries the numeric
suffix of an underscore and n inserted before the extension. -/
theorem rollover_file_names (abs : Bool) (cs : List String) (name : String) (n : Nat)
    (hname : '.' ∉ name.data) :
    newFilePathQ ⟨abs, cs ++ [name]⟩ 0 = some ⟨abs, cs ++ [name ++ ".parquet"]⟩
    ∧ (1 ≤ n →
        newFilePathQ ⟨abs, cs ++ [name]⟩ n
          = some ⟨abs, cs ++ [name ++ "_" ++ natToString n ++ ".parquet"]⟩) := by
  constructor
  · simp [newFilePathQ, setExtension_concat_noDot abs cs name hname]
  · intro hn
    have hne : ¬ (n = 0) := by omega
    have hnd : '.' ∉ (name ++ "_" ++ natToString n).data := by
      intro hmem
      rw [String.data_append, String.data_append] at hmem
      rcases List.mem_append.mp hmem with h1 | h2
      · rcases List.mem_append.mp h1 with ha | hb
        · exact hname ha
        · exact absurd hb (by decide)
      · exact natToString_noDot n h2
    simp only [newFilePathQ, if_neg hne, RPath.fileName, List.getLast?_concat,
      RPath.withFileName, List.dropLast_concat]
    rw [setExtension_concat_noDot abs cs (name ++ "_" ++ natToString n) hnd]

/-- Witness for rollover_file_names at a concrete dot-free base name and
rollover index 1. -/
theorem rollover_file_names_witness :
    newFilePathQ ⟨false, ["d", "0"]⟩ 0 = some ⟨false, ["d", "0.parquet"]⟩
    ∧ newFilePathQ ⟨false, ["d", "0"]⟩ 1 = some ⟨false, ["d", "0_1.parquet"]⟩ := by
  have h := rollover_file_names false ["d"] "0" 1 (by decide)
  have h0 := h.1
  have h1 := h.2 (by decide)
  refine ⟨?_, ?_⟩
  · rw [show (["d", "0"] : List String) = ["d"] ++ ["0"] from rfl, h0]
    rfl
  · rw [show (["d", "0"] : List String) = ["d"] ++ ["0"] from rfl, h1]
    rfl

theorem flushB_sinkOk_ok (w : ParquetTableWriter) (fw : FileWriterState)
    (hfw : w.fileWriter = some fw) (hname : w.basePath.fileName.isSome = true) :
    (w.flushB .sinkOk).1 = .ok
    ∧ (w.flushB .sinkOk).2.builder = []
    ∧ (w.flushB .sinkOk).2.autoflushBufferSize = w.autoflushBufferSize
    ∧ (w.flushB .sinkOk).2.autoflushRowGroupLen = w.autoflushRowGroupLen := by
  obtain ⟨nm, hnm⟩ := Option.isSome_iff_exists.mp hname
  simp only [ParquetTableWriter.flushB, hfw]
  by_cases hth :
      rolloverThreshold ≤ fw.rowGroups + groupsOf (fw.pending + w.builder.length) w.maxRowGroupSize
  · simp only [if_pos hth, ParquetTableWriter.newFileWriter, newFilePathQ, hnm]
    simp
  · simp [if_neg hth]

/-- Claim C1 (amended): on every successful flush of ParquetTableWriter,
after the buffered batch is written and the sink is flushed, the writer rolls
over exactly when the current physical file's row-group count has reached
i16::MAX - 2 = 32765 (two below the format's hard limit of 32767): it then
closes the current physical file and opens a new one under the same logical
identity, while a flush leaving fewer than 32765 row groups keeps the same
physical file. -/
theorem parquet_flush_rollover (w : ParquetTableWriter) (fw : FileWriterState)
    (hfw : w.fileWriter = some fw) (hname : w.basePath.fileName.isSome = true) :
    (w.flushB .sinkOk).1 = .ok
    ∧ (rolloverThreshold ≤ fw.rowGroups + groupsOf (fw.pending + w.builder.length) w.maxRowGroupSize →
        (w.flushB .sinkOk).2.numWrittenFiles = w.numWrittenFiles + 1
        ∧ (w.flushB .sinkOk).2.closedFiles = w.closedFiles ++ [fw.path]
        ∧ ∃ p, newFilePathQ w.basePath (w.numWrittenFiles + 1) = some p
            ∧ (w.flushB .sinkOk).2.fileWriter = some ⟨p, 0, 0, 0⟩)
    ∧ (fw.rowGroups + groupsOf (fw.pending + w.builder.length) w.maxRowGroupSize < rolloverThreshold →
        (w.flushB .sinkOk).2.numWrittenFiles = w.numWrittenFiles
        ∧ (w.flushB .sinkOk).2.closedFiles = w.closedFiles
        ∧ (w.flushB .sinkOk).2.fileWriter
            = some ⟨fw.path, 0,
                fw.rowGroups + groupsOf (fw.pending + w.builder.length) w.maxRowGroupSize,
                fw.written + w.builder.length⟩) := by
  obtain ⟨nm, hnm⟩ := Option.isSome_iff_exists.mp hname
  by_cases hth :
      rolloverThreshold ≤ fw.rowGroups + groupsOf (fw.pending + w.builder.length) w.maxRowGroupSize
  · refine ⟨(flushB_sinkOk_ok w fw hfw hname).1, fun _ => ?_, fun h2 => absurd hth (by omega)⟩
    simp only [ParquetTableWriter.flushB, hfw, if_pos hth, ParquetTableWriter.newFileWriter,
      newFilePathQ, hnm]
    simp
  · refine ⟨(flushB_sinkOk_ok w fw hfw hname).1, fun h1 => absurd h1 (by omega), fun _ => ?_⟩
    simp [ParquetTableWriter.flushB, hfw, if_neg hth]

/-- Concrete writer one row group short of the rollover threshold, with one
buffered row. -/
def rolloverEdgeWriter : ParquetTableWriter :=
  { basePath := ⟨false, ["d", "0"]⟩
    autoflushRowGroupLen := 100
    autoflushBufferSize := none
    maxRowGroupSize := 10
    fileWriter := some { path := ⟨false, ["d", "0.parquet"]⟩, pending := 0, rowGroups := 32764,
                         written := 32764 }
    numWrittenFiles := 0
    builder := [1]
    closedFiles := []
    createdFiles := [] }

/-- Claim C1 counterexample: a successful flush whose physical file ends at
32765 row groups, strictly below the 32767 limit named by the claim, yet the
writer closes that file and opens a new one, so a flush below 32767 does not
keep the same physical file. -/
theorem parquet_flush_rollover_counterexample :
    (rolloverEdgeWriter.flushB .sinkOk).1 = .ok
    ∧ rolloverEdgeWriter.numWrittenFiles = 0
    ∧ 32764 + groupsOf (0 + 1) 10 = 32765
    ∧ 32765 < 32767
    ∧ (rolloverEdgeWriter.flushB .sinkOk).2.numWrittenFiles = 1
    ∧ (rolloverEdgeWriter.flushB .sinkOk).2.closedFiles = [⟨false, ["d", "0.parquet"]⟩]
    ∧ (rolloverEdgeWriter.flushB .sinkOk).2.fileWriter
        = some ⟨⟨false, ["d", "0_1.parquet"]⟩, 0, 0, 0⟩ := by
  decide

/-- Witness for parquet_flush_rollover at a concrete writer below the
threshold: the flush keeps the same physical file. -/
theorem parquet_flush_rollover_witness :
    ((ParquetTableWriter.new ⟨false, ["d", "0"]⟩ 10 ⟨some 5, none⟩).flushB .sinkOk).1 = .ok
    ∧ ((ParquetTableWriter.new ⟨false, ["d", "0"]⟩ 10 ⟨some 5, none⟩).flushB .sinkOk).2.numWrittenFiles
        = (ParquetTableWriter.new ⟨false, ["d", "0"]⟩ 10 ⟨some 5, none⟩).numWrittenFiles := by
  have h := parquet_flush_rollover (ParquetTableWriter.new ⟨false, ["d", "0"]⟩ 10 ⟨some 5, none⟩)
    ⟨⟨false, ["d", "0.parquet"]⟩, 0, 0, 0⟩ (by decide) (by decide)
  exact ⟨h.1, ((h.2.2) (by decide)).1⟩

/-- Claim C3 (amended): for a configured auto-flush row-count threshold R of
at least 1, with the byte-size threshold unset or positive, a call to
ParquetTableWriter::builder on a builder holding exactly R rows triggers
exactly one automatic flush before returning, and the builder handed back
holds strictly fewer than R rows. -/
theorem parquet_builder_threshold (w : ParquetTableWriter) (fw : FileWriterState)
    (hfw : w.fileWriter = some fw) (hname : w.basePath.fileName.isSome = true)
    (hR : 1 ≤ w.autoflushRowGroupLen)
    (hlen : w.builder.length = w.autoflushRowGroupLen)
    (hbuf : ∀ sz, w.autoflushBufferSize = some sz → 1 ≤ sz) :
    (w.builderCall).1 = .ok
    ∧ (w.builderCall).2.2 = 1
    ∧ (w.builderCall).2.1.builder.length < w.autoflushRowGroupLen := by
  have hflush := flushB_sinkOk_ok w fw hfw hname
  have hc : w.autoflushRowGroupLen ≤ w.builder.length := le_of_eq hlen.symm
  obtain ⟨hok, hbl, hbs, hagl⟩ := hflush
  simp only [ParquetTableWriter.builderCall, if_pos hc, hok]
  cases hszc : (w.flushB .sinkOk).2.autoflushBufferSize with
  | none => simp [hszc, hbl]; omega
  | some sz =>
    have hsz1 : 1 ≤ sz := hbuf sz (by rw [← hbs, hszc])
    have hsz0 : ¬ (sz = 0) := by omega
    simp [hszc, hbl, hsz0]
    omega

/-- Witness for parquet_builder_threshold: a writer with threshold 3 and
three buffered rows performs exactly one flush and hands back an empty
builder. -/
theorem parquet_builder_threshold_witness :
    (ParquetTableWriter.builderCall
        { basePath := ⟨false, ["d", "0"]⟩
          autoflushRowGroupLen := 3
          autoflushBufferSize := some 100
          maxRowGroupSize := 10
          fileWriter := some ⟨⟨false, ["d", "0.parquet"]⟩, 0, 0, 0⟩
          numWrittenFiles := 0
          builder := [4, 5, 6]
          closedFiles := []
          createdFiles := [] }).1 = .ok
    ∧ (ParquetTableWriter.builderCall
        { basePath := ⟨false, ["d", "0"]⟩
          autoflushRowGroupLen := 3
          autoflushBufferSize := some 100
          maxRowGroupSize := 10
          fileWriter := some ⟨⟨false, ["d", "0.parquet"]⟩, 0, 0, 0⟩
          numWrittenFiles := 0
          builder := [4, 5, 6]
          closedFiles := []
          createdFiles := [] }).2.2 = 1 := by
  have h := parquet_builder_threshold
    { basePath := ⟨false, ["d", "0"]⟩
      autoflushRowGroupLen := 3
      autoflushBufferSize := some 100
      maxRowGroupSize := 10
      fileWriter := some ⟨⟨false, ["d", "0.parquet"]⟩, 0, 0, 0⟩
      numWrittenFiles := 0
      builder := [4, 5, 6]
      closedFiles := []
      createdFiles := [] }
    ⟨⟨false, ["d", "0.parquet"]⟩, 0, 0, 0⟩ (by decide) (by decide) (by decide) (by decide)
    (by intro sz hsz; cases hsz; decide)
  exact ⟨h.1, h.2.1⟩

/-- Writer configured with auto-flush row-count threshold 0 and an empty
builder. -/
def zeroThresholdWriter : ParquetTableWriter :=
  { basePath := ⟨false, ["d", "0"]⟩
    autoflushRowGroupLen := 0
    autoflushBufferSize := none
    maxRowGroupSize := 10
    fileWriter := some ⟨⟨false, ["d", "0.parquet"]⟩, 0, 0, 0⟩
    numWrittenFiles := 0
    builder := []
    closedFiles := []
    createdFiles := [] }

/-- Claim C3 counterexample: with configured threshold R = 0, inserting
exactly R rows (none) and requesting the builder triggers one automatic
flush, but the row count of the builder handed back is 0, which is not
strictly less than R. -/
theorem parquet_builder_threshold_counterexample :
    (zeroThresholdWriter.builderCall).2.2 = 1
    ∧ ¬ ((zeroThresholdWriter.builderCall).2.1.builder.length
          < zeroThresholdWriter.autoflushRowGroupLen) := by
  decide

/-- Claim C10: ParquetTableWriter::flush drains the builder before attempting
the write, so when the write or the sink flush fails the flush reports the
error with the builder already empty; the rows of the failed batch are not
restored, a write failure leaves the file writer untouched, and a retried
flush writes an empty batch (the lost rows are never re-attempted). -/
theorem parquet_flush_not_atomic (w : ParquetTableWriter) (fw : FileWriterState)
    (hfw : w.fileWriter = some fw)
    (hpend : fw.pending = 0) (hgr : fw.rowGroups < rolloverThreshold) :
    (w.flushB .writeFails).1 = .writeErr
    ∧ (w.flushB .writeFails).2.builder = []
    ∧ (w.flushB .flushFails).1 = .sinkFlushErr
    ∧ (w.flushB .flushFails).2.builder = []
    ∧ (w.flushB .writeFails).2.fileWriter = some fw
    ∧ ((w.flushB .writeFails).2.flushB .sinkOk).1 = .ok
    ∧ ((w.flushB .writeFails).2.flushB .sinkOk).2.fileWriter
        = some ⟨fw.path, 0, fw.rowGroups, fw.written⟩ := by
  have hng : ¬ (rolloverThreshold ≤ fw.rowGroups + groupsOf (0 + 0) w.maxRowGroupSize) := by
    simp [groupsOf]; omega
  have hngr : ¬ (rolloverThreshold ≤ fw.rowGroups) := by omega
  refine ⟨?_, ?_, ?_, ?_, ?_, ?_, ?_⟩ <;>
    simp [ParquetTableWriter.flushB, hfw, hpend, hng, hngr, groupsOf]

/-- Witness for parquet_flush_not_atomic at a concrete writer with two
buffered rows: the failing flush errors with the builder drained and the
retry re-attempts nothing. -/
theorem parquet_flush_not_atomic_witness :
    ((ParquetTableWriter.mk ⟨false, ["d", "0"]⟩ 9 none 10
        (some ⟨⟨false, ["d", "0.parquet"]⟩, 0, 4, 40⟩) 0 [7, 8] [] []).flushB .writeFails).1
        = .writeErr
    ∧ ((ParquetTableWriter.mk ⟨false, ["d", "0"]⟩ 9 none 10
        (some ⟨⟨false, ["d", "0.parquet"]⟩, 0, 4, 40⟩) 0 [7, 8] [] []).flushB
          .writeFails).2.builder = []
    ∧ (((ParquetTableWriter.mk ⟨false, ["d", "0"]⟩ 9 none 10
        (some ⟨⟨false, ["d", "0.parquet"]⟩, 0, 4, 40⟩) 0 [7, 8] [] []).flushB
          .writeFails).2.flushB .sinkOk).2.fileWriter
        = some ⟨⟨false, ["d", "0.parquet"]⟩, 0, 4, 40⟩ := by
  have h := parquet_flush_not_atomic
    (ParquetTableWriter.mk ⟨false, ["d", "0"]⟩ 9 none 10
      (some ⟨⟨false, ["d", "0.parquet"]⟩, 0, 4, 40⟩) 0 [7, 8] [] [])
    ⟨⟨false, ["d", "0.parquet"]⟩, 0, 4, 40⟩ (by decide) (by decide) (by decide)
  exact ⟨h.1, h.2.1, h.2.2.2.2.2.2⟩

/-- Claim C2: for ParquetTableWriter an explicit close() consumes the writer,
takes the file writer out, and the automatic finalization at drop detects
this and is a no-op; but for ArrowTableWriter the Drop impl unconditionally
flushes and finishes again, so close() followed by the drop of the consumed
writer attempts a second finalization of the already finished file and
panics. -/
theorem writer_close_then_drop (w : ParquetTableWriter) :
    ((w.close).1 = .ok →
      (w.close).2.fileWriter = none ∧ (w.close).2.dropFinalizeAttempts = 0)
    ∧ (ArrowTableWriter.closeThenDrop ⟨⟨false, ["d", "0"]⟩, false, [3], 0⟩).1 = .ok
    ∧ (ArrowTableWriter.closeThenDrop ⟨⟨false, ["d", "0"]⟩, false, [3], 0⟩).2.1 = .panicked := by
  refine ⟨?_, by decide, by decide⟩
  rcases hr : w.flushB .sinkOk with ⟨r1, w1⟩
  cases r1 <;> simp only [ParquetTableWriter.close, hr]
  case ok =>
    cases hfw1 : w1.fileWriter with
    | none => simp
    | some fw1 =>
      intro _
      simp [hfw1, ParquetTableWriter.dropFinalizeAttempts]
  all_goals simp

/-- Witness for writer_close_then_drop: a freshly constructed parquet writer
closed explicitly leaves no file writer behind, so its drop is a no-op. -/
theorem writer_close_then_drop_witness :
    ((ParquetTableWriter.new ⟨false, ["d", "7"]⟩ 100 ⟨some 10, none⟩).close).2.fileWriter = none
    ∧ ((ParquetTableWriter.new ⟨false, ["d", "7"]⟩ 100
        ⟨some 10, none⟩).close).2.dropFinalizeAttempts = 0 :=
  (writer_close_then_drop (ParquetTableWriter.new ⟨false, ["d", "7"]⟩ 100 ⟨some 10, none⟩)).1
    (by decide)

theorem string_append_right_inj (s a b : String) (h : s ++ a = s ++ b) : a = b := by
  apply String.ext
  have hd := congrArg String.data h
  rw [String.data_append, String.data_append] at hd
  exact List.append_cancel_left hd

theorem lookup_append_self (k : String) (v : RPath) :
    ∀ l : List (String × RPath), List.lookup k l = none →
      List.lookup k (l ++ [(k, v)]) = some v := by
  intro l
  induction l with
  | nil => intro _; simp [List.lookup]
  | cons a l ih =>
    intro h
    rcases a with ⟨a1, a2⟩
    simp only [List.cons_append, List.lookup] at h ⊢
    cases hbeq : (k == a1) with
    | true => simp [hbeq] at h
    | false => simp only [hbeq] at h ⊢; exact ih h

theorem lookup_append_other (k2 k : String) (v : RPath) (hne : k2 ≠ k) :
    ∀ l : List (String × RPath), List.lookup k2 l = none →
      List.lookup k2 (l ++ [(k, v)]) = none := by
  intro l
  induction l with
  | nil =>
    intro _
    simp only [List.nil_append, List.lookup, beq_eq_false_iff_ne.mpr hne]
  | cons a l ih =>
    intro h
    rcases a with ⟨a1, a2⟩
    simp only [List.cons_append, List.lookup] at h ⊢
    cases hbeq : (k2 == a1) with
    | true => simp [hbeq] at h
    | false => simp only [hbeq] at h ⊢; exact ih h

theorem partition_paths_ne (p : RPath) (col tid k2 k : String) (hne : k2 ≠ k) :
    (p.join (col ++ "=" ++ k2)).join tid ≠ (p.join (col ++ "=" ++ k)).join tid := by
  intro heq
  simp only [RPath.join, RPath.mk.injEq] at heq
  have h2 := List.append_cancel_right heq.2
  have h3 := List.append_cancel_left h2
  simp only [List.cons.injEq, and_true] at h3
  exact hne (string_append_right_inj (col ++ "=") k2 k h3)

/-- Claim C5: the first call to partition on the keyed writer with an unseen
key k creates the directory base/column=k and a new sub-writer inside it;
a later call with an equal key string returns the same sub-writer with no
further filesystem events (exact string equality, no normalization); a call
with an unequal unseen key yields a distinct sub-writer. -/
theorem utf8_partition_reuse (w : Utf8PartitionedTableWriter) (k k2 : String)
    (hk : List.lookup k w.partitionWriters = none)
    (hk2 : List.lookup k2 w.partitionWriters = none)
    (hne : k2 ≠ k) :
    (w.partition k).1 = (w.path.join (w.partitionColumn ++ "=" ++ k)).join w.threadId
    ∧ (w.partition k).2.2
        = [FsEvent.mkdirAll (w.path.join (w.partitionColumn ++ "=" ++ k)),
           FsEvent.createFile ((w.path.join (w.partitionColumn ++ "=" ++ k)).join w.threadId)]
    ∧ ((w.partition k).2.1.partition k).1 = (w.partition k).1
    ∧ ((w.partition k).2.1.partition k).2.1 = (w.partition k).2.1
    ∧ ((w.partition k).2.1.partition k).2.2 = []
    ∧ ((w.partition k).2.1.partition k2).1 ≠ (w.partition k).1 := by
  have hfst : w.partition k
      = ((w.path.join (w.partitionColumn ++ "=" ++ k)).join w.threadId,
         { w with partitionWriters := w.partitionWriters
              ++ [(k, (w.path.join (w.partitionColumn ++ "=" ++ k)).join w.threadId)] },
         [FsEvent.mkdirAll (w.path.join (w.partitionColumn ++ "=" ++ k)),
          FsEvent.createFile ((w.path.join (w.partitionColumn ++ "=" ++ k)).join w.threadId)]) := by
    simp [Utf8PartitionedTableWriter.partition, hk]
  have hlook := lookup_append_self k
    ((w.path.join (w.partitionColumn ++ "=" ++ k)).join w.threadId) w.partitionWriters hk
  have hlook2 := lookup_append_other k2 k
    ((w.path.join (w.partitionColumn ++ "=" ++ k)).join w.threadId) hne w.partitionWriters hk2
  refine ⟨by rw [hfst], by rw [hfst], ?_, ?_, ?_, ?_⟩
  · rw [hfst]; simp [Utf8PartitionedTableWriter.partition, hlook]
  · rw [hfst]; simp [Utf8PartitionedTableWriter.partition, hlook]
  · rw [hfst]; simp [Utf8PartitionedTableWriter.partition, hlook]
  · rw [hfst]
    simp only [Utf8PartitionedTableWriter.partition, hlook2]
    exact partition_paths_ne w.path w.partitionColumn w.threadId k2 k hne

/-- Witness for utf8_partition_reuse on a fresh keyed writer with keys 2021
and 2022. -/
theorem utf8_partition_reuse_witness :
    ((Utf8PartitionedTableWriter.mk ⟨false, ["base"]⟩ "year" "0" []).partition "2021").1
        = ⟨false, ["base", "year=2021", "0"]⟩
    ∧ (((Utf8PartitionedTableWriter.mk ⟨false, ["base"]⟩ "year" "0" []).partition
          "2021").2.1.partition "2021").2.2 = []
    ∧ (((Utf8PartitionedTableWriter.mk ⟨false, ["base"]⟩ "year" "0" []).partition
          "2021").2.1.partition "2022").1
        ≠ ((Utf8PartitionedTableWriter.mk ⟨false, ["base"]⟩ "year" "0" []).partition "2021").1 := by
  have h := utf8_partition_reuse (Utf8PartitionedTableWriter.mk ⟨false, ["base"]⟩ "year" "0" [])
    "2021" "2022" rfl rfl (by decide)
  refine ⟨?_, h.2.2.2.2.1, h.2.2.2.2.2⟩
  rw [h.1]
  rfl

/-- Claim C8: both partitioned-writer variants fail with a creation error
when the supplied path has no parent component, and otherwise split it into
the parent directory and the trailing file-name segment, which is reused
unchanged as the file name inside every partition subdirectory (eagerly for
the bucket variant, lazily at each new key for the keyed variant). -/
theorem partitioned_path_split (abs : Bool) (col : String) (cs : List String)
    (t : String) (n : Nat) (k : String) :
    u16New ⟨abs, []⟩ col (some n) = .error .noParent
    ∧ u16New ⟨abs, []⟩ col none = .error .noParent
    ∧ utf8New ⟨abs, []⟩ col = .error .noParent
    ∧ u16New ⟨abs, cs ++ [t]⟩ col none
        = .ok (⟨[⟨abs, cs ++ [t]⟩]⟩,
            [FsEvent.mkdirAll ⟨abs, cs⟩, FsEvent.createFile ⟨abs, cs ++ [t]⟩])
    ∧ u16New ⟨abs, cs ++ [t]⟩ col (some n)
        = .ok (⟨(List.range n).map fun i => ⟨abs, cs ++ [col ++ "=" ++ natToString i, t]⟩⟩,
            (List.range n).flatMap fun i =>
              [FsEvent.mkdirAll ⟨abs, cs ++ [col ++ "=" ++ natToString i]⟩,
               FsEvent.createFile ⟨abs, cs ++ [col ++ "=" ++ natToString i, t]⟩])
    ∧ utf8New ⟨abs, cs ++ [t]⟩ col = .ok ⟨⟨abs, cs⟩, col, t, []⟩
    ∧ ((Utf8PartitionedTableWriter.mk ⟨abs, cs⟩ col t []).partition k).1
        = ⟨abs, cs ++ [col ++ "=" ++ k, t]⟩ := by
  refine ⟨rfl, rfl, rfl, ?_, ?_, ?_, ?_⟩
  · simp [u16New, RPath.join, List.getLast?_concat, List.dropLast_concat]
  · simp [u16New, RPath.join, List.getLast?_concat, List.dropLast_concat, List.map_map,
      Function.comp, List.flatMap_map]
  · simp [utf8New, List.getLast?_concat, List.dropLast_concat]
  · simp [Utf8PartitionedTableWriter.partition, List.lookup, RPath.join]

end DatasetWriter
